import Mathlib

/-!
Verification of the `vice` marketplace-client library (DMarket, CSFloat,
Buff Market HTTP API clients) against its natural-language specification.

The Rust source is shallowly embedded: bytes are `Nat` (< 256), byte
strings are `List Nat`, HTTP responses are a status/body pair, the external
JSON deserializer (`serde_json::from_str`) and the cryptographic primitives
(`ed25519_dalek` signing, HMAC-SHA256) are abstracted as function
parameters, while everything the repository itself computes (hex and base64
encoding, canonical-message assembly, key validation and truncation,
status/envelope dispatch, the pagination loop) is embedded concretely.
-/

/-- An HTTP response as the clients observe it: numeric status code and the
body, which reqwest can yield as text. -/
structure HttpResponse where
  status : Nat
  body : String
deriving DecidableEq, Repr

/-- `reqwest::StatusCode::is_success`: 2xx statuses. -/
def HttpResponse.isSuccess (r : HttpResponse) : Bool :=
  200 ≤ r.status && r.status < 300

/-- Lowercase hex digit for a nibble, as produced by `hex::encode`. -/
def hexDigitChar (n : Nat) : Char :=
  if n < 10 then Char.ofNat (48 + n) else Char.ofNat (87 + n)

/-- `hex::encode` on a byte list: each byte becomes two lowercase hex
digits, high nibble first. -/
def hexEncodeList : List Nat → List Char
  | [] => []
  | b :: rest => hexDigitChar (b / 16) :: hexDigitChar (b % 16) :: hexEncodeList rest

/-- `hex::encode` producing a string. -/
def hexEncode (bs : List Nat) : String :=
  String.mk (hexEncodeList bs)

/-- Value of one hex digit, accepting both cases as `hex::decode` does. -/
def hexDigitVal (c : Char) : Option Nat :=
  if 48 ≤ c.toNat ∧ c.toNat ≤ 57 then some (c.toNat - 48)
  else if 97 ≤ c.toNat ∧ c.toNat ≤ 102 then some (c.toNat - 87)
  else if 65 ≤ c.toNat ∧ c.toNat ≤ 70 then some (c.toNat - 55)
  else none

/-- `hex::decode` on the character list: pairs of digits to bytes; odd
length or a non-hex character fails. -/
def hexDecodeChars : List Char → Option (List Nat)
  | [] => some []
  | [_] => none
  | c1 :: c2 :: rest =>
    match hexDigitVal c1, hexDigitVal c2, hexDecodeChars rest with
    | some h, some l, some t => some ((h * 16 + l) :: t)
    | _, _, _ => none

/-- `hex::decode` on a string. -/
def hexDecode (s : String) : Option (List Nat) :=
  hexDecodeChars s.data

/-- Character of one 6-bit group, standard base64 alphabet. -/
def base64Char (n : Nat) : Char :=
  if n < 26 then Char.ofNat (65 + n)
  else if n < 52 then Char.ofNat (97 + (n - 26))
  else if n < 62 then Char.ofNat (48 + (n - 52))
  else if n = 62 then Char.ofNat 43
  else Char.ofNat 47

/-- Standard base64 encoding (with padding) of a byte list. -/
def base64EncodeList : List Nat → List Char
  | [] => []
  | [a] =>
    [base64Char (a / 4), base64Char (a % 4 * 16), Char.ofNat 61, Char.ofNat 61]
  | [a, b] =>
    [base64Char (a / 4), base64Char (a % 4 * 16 + b / 16),
     base64Char (b % 16 * 4), Char.ofNat 61]
  | a :: b :: c :: rest =>
    base64Char (a / 4) :: base64Char (a % 4 * 16 + b / 16) ::
    base64Char (b % 16 * 4 + c / 64) :: base64Char (c % 64) ::
    base64EncodeList rest

/-- Base64 encoding producing a string. -/
def base64Encode (bs : List Nat) : String :=
  String.mk (base64EncodeList bs)

/-! ## DMarket client (src/dmarket) -/

/-- `DMarketError` (src/dmarket/error.rs); every variant's payload is the
display text it carries.  `hexError` stands for the error that
`hex::decode(..)?` in `DMarketClient::new` converts into (the source enum
declares no dedicated variant for it). -/
inductive DMarketError where
  | envError : String → DMarketError
  | requestError : String → DMarketError
  | jsonError : String → DMarketError
  | headerError : String → DMarketError
  | hmacError : String → DMarketError
  | apiError : String → DMarketError
  | hexError : String → DMarketError
deriving DecidableEq, Repr

/-- `DMarketClient` state after construction: the Ed25519 signing-key bytes
(32-byte seed) and the public key string. -/
structure DMarketClient where
  key : List Nat
  public_key : String
deriving DecidableEq, Repr

/-- `DMarketClient::new` (src/dmarket/client.rs:22-74), with the two
environment variables passed as arguments: length checks on the raw
strings, hex decoding, then acceptance of a 32-byte seed or the first 32
bytes of a 64-byte seed+public-key concatenation. -/
def DMarketClient.new (private_key public_key : String) :
    Except DMarketError DMarketClient :=
  if private_key.length < 32 then
    .error (.apiError "Private key is too short")
  else if public_key.length < 32 then
    .error (.apiError "Public key is too short")
  else
    match hexDecode private_key with
    | none => .error (.hexError "hex decode failed")
    | some private_bytes =>
      if private_bytes.length = 32 then
        .ok { key := private_bytes, public_key := public_key }
      else if private_bytes.length = 64 then
        .ok { key := private_bytes.take 32, public_key := public_key }
      else
        .error (.apiError ("Invalid private key length: " ++
          toString private_bytes.length ++ ". Expected 32 or 64 bytes"))

/-- `path.starts_with('/')` from the source: the first character is `/`. -/
def startsWithSlash (s : String) : Bool :=
  s.data.head? == some '/'

/-- Path normalization inside `generate_signature`: force a leading `/`. -/
def ensureLeadingSlash (path : String) : String :=
  if !startsWithSlash path then "/" ++ path else path

/-- `DMarketClient::generate_signature` (src/dmarket/client.rs:76-105).
`sign` abstracts `ed25519_dalek::SigningKey::sign` as a function of the key
bytes and the message; the canonical message is
`METHOD ++ path ++ body ++ timestamp` and the result is the `dmar ed25519 `
tag followed by the lowercase hex of the signature bytes. -/
def DMarketClient.generate_signature (sign : List Nat → String → List Nat)
    (c : DMarketClient) (timestamp method path body : String) :
    Except DMarketError String :=
  let method := method.toUpper
  let path := ensureLeadingSlash path
  let message := method ++ path ++ body ++ timestamp
  let signature := sign c.key message
  .ok ("dmar ed25519 " ++ hexEncode signature)

/-- `DMarketClient::get_user_profile` response handling
(src/dmarket/client.rs:136-147).  On a non-2xx status the body text is read
and embedded in `ApiError`; on success `reqwest::Response::json` decodes the
body directly — no text is captured — and a decode failure surfaces through
`From<reqwest::Error>` as `requestError`. -/
def DMarketClient.get_user_profile_handle {Profile : Type}
    (decode : String → Except String Profile) (resp : HttpResponse) :
    Except DMarketError Profile :=
  if !resp.isSuccess then
    .error (.apiError ("API returned error status " ++ toString resp.status ++
      ": " ++ resp.body))
  else
    match decode resp.body with
    | .ok profile => .ok profile
    | .error e => .error (.requestError e)

/-- The inner `TotalCounts` struct of `get_market_items`
(src/dmarket/client.rs:245-257); all counters default to 0 when absent. -/
structure TotalCounts where
  offers : Int
  targets : Int
  items : Int
  completedOffers : Int
  closedTargets : Int
deriving DecidableEq, Repr

/-- The inner `DMarketResponse` struct of `get_market_items`
(src/dmarket/client.rs:259-266): both list fields use `#[serde(default)]`,
so an absent key decodes to the empty list.  `α` stands for the raw
`DMarketMarketItem`. -/
structure DMarketResponse (α : Type) where
  objects : List α
  items : List α
  total : TotalCounts
deriving DecidableEq, Repr

/-- The repository's `MarketItemsResponse` model, with `β` standing for the
converted `MarketItem`. -/
structure MarketItemsResponse (β : Type) where
  objects : List β
  total : Int
deriving DecidableEq, Repr

/-- The field-fallback of `get_market_items` (src/dmarket/client.rs:276-281):
use `objects` when non-empty, otherwise `items`. -/
def selectMarketItems {α : Type} (r : DMarketResponse α) : List α :=
  if !r.objects.isEmpty then r.objects else r.items

/-- `DMarketClient::get_market_items` response handling
(src/dmarket/client.rs:205-335).  `jsonValid` abstracts the first parse into
`serde_json::Value`, `decode` the typed parse into `DMarketResponse`, and
`conv` the per-item conversion to the `MarketItem` model. -/
def DMarketClient.get_market_items_handle {α β : Type}
    (jsonValid : String → Except String Unit)
    (decode : String → Except String (DMarketResponse α)) (conv : α → β)
    (resp : HttpResponse) : Except DMarketError (MarketItemsResponse β) :=
  if !resp.isSuccess then
    .error (.apiError ("API returned error status " ++ toString resp.status ++
      ": " ++ resp.body))
  else
    match jsonValid resp.body with
    | .error e => .error (.jsonError e)
    | .ok _ =>
      match decode resp.body with
      | .error e => .error (.jsonError e)
      | .ok r =>
        .ok { objects := (selectMarketItems r).map conv, total := r.total.offers }

/-- `DMarketClient::search_market_items` response handling
(src/dmarket/client.rs:362-488); the source duplicates the
`get_market_items` logic verbatim (without the extra `Value` pre-parse). -/
def DMarketClient.search_market_items_handle {α β : Type}
    (decode : String → Except String (DMarketResponse α)) (conv : α → β)
    (resp : HttpResponse) : Except DMarketError (MarketItemsResponse β) :=
  if !resp.isSuccess then
    .error (.apiError ("API returned error status " ++ toString resp.status ++
      ": " ++ resp.body))
  else
    match decode resp.body with
    | .error e => .error (.jsonError e)
    | .ok r =>
      .ok { objects := (selectMarketItems r).map conv, total := r.total.offers }

/-- The repository's `Balance` model (src/dmarket/models.rs). -/
structure Balance where
  amount : String
  currency : String
deriving DecidableEq, Repr

/-- `DMarketClient::get_account_balance` response handling
(src/dmarket/client.rs:507-546).  The body text is read and parsed into a
`serde_json::Value` (abstracted as `decode` into `V`) BEFORE the status
check, so a parse failure surfaces as `JsonError` even on a non-2xx
response; `getUsd` and `getDmc` abstract
`value.get("usd"/"dmc").and_then(as_str)`. -/
def DMarketClient.get_account_balance_handle {V : Type}
    (decode : String → Except String V) (getUsd getDmc : V → Option String)
    (resp : HttpResponse) : Except DMarketError (List Balance) :=
  match decode resp.body with
  | .error e => .error (.jsonError e)
  | .ok balance_response =>
    if !resp.isSuccess then
      .error (.apiError ("API returned error status " ++ toString resp.status ++
        ": " ++ resp.body))
    else
      let balances : List Balance := []
      let balances := match getUsd balance_response with
        | some usd => balances ++ [{ amount := usd, currency := "USD" }]
        | none => balances
      let balances := match getDmc balance_response with
        | some dmc => balances ++ [{ amount := dmc, currency := "DMC" }]
        | none => balances
      .ok balances

/-! ## CSFloat client (src/csfloat) -/

/-- `CSFloatError` (src/csfloat/error.rs). -/
inductive CSFloatError where
  | apiError : String → CSFloatError
  | httpError : String → CSFloatError
  | envVarError : String → CSFloatError
  | serializationError : String → CSFloatError
  | invalidHeaderValue : String → CSFloatError
  | urlEncodingError : String → CSFloatError
deriving DecidableEq, Repr

/-- `CSFloatClient::get` response handling (src/csfloat/client.rs:67-90):
non-2xx wraps status and body text in `ApiError`; 2xx reads the full body
text, then decodes it, wrapping a decode failure in `SerializationError`. -/
def CSFloatClient.get_handle {T : Type} (decode : String → Except String T)
    (resp : HttpResponse) : Except CSFloatError T :=
  if !resp.isSuccess then
    .error (.apiError ("API request failed with status " ++
      toString resp.status ++ ": " ++ resp.body))
  else
    match decode resp.body with
    | .ok parsed => .ok parsed
    | .error e => .error (.serializationError e)

/-- `CSFloatClient::post` response handling (src/csfloat/client.rs:107-128);
identical to the `get` handling in the source. -/
def CSFloatClient.post_handle {T : Type} (decode : String → Except String T)
    (resp : HttpResponse) : Except CSFloatError T :=
  if !resp.isSuccess then
    .error (.apiError ("API request failed with status " ++
      toString resp.status ++ ": " ++ resp.body))
  else
    match decode resp.body with
    | .ok parsed => .ok parsed
    | .error e => .error (.serializationError e)

/-! ## Buff Market client (src/buff_market) -/

/-- `BuffMarketError` (src/buff_market/error.rs).  `httpRequest` wraps the
`reqwest::Error` produced by `Response::error_for_status`, which records the
status code (and URL) but not the response body. -/
inductive BuffMarketError where
  | httpRequest : Nat → BuffMarketError
  | jsonParse : String → BuffMarketError
  | apiError : String → BuffMarketError
  | missingData : String → BuffMarketError
  | invalidInput : String → BuffMarketError
  | unknown : BuffMarketError
deriving DecidableEq, Repr

/-- `GoodsBuyOrderData` (src/buff_market/models.rs); `α` stands for the
`Item` element type. -/
structure GoodsBuyOrderData (α : Type) where
  items : List α
  page_num : Int
  page_size : Int
  total_count : Int
  total_page : Int
deriving DecidableEq, Repr

/-- `GoodsBuyOrderResponse` envelope (src/buff_market/models.rs). -/
structure GoodsBuyOrderResponse (α : Type) where
  code : String
  data : Option (GoodsBuyOrderData α)
  msg : Option String
deriving DecidableEq, Repr

/-- `MarketGoodsData` (src/buff_market/models.rs); `α` stands for the
`MarketGoodsItem` element type. -/
structure MarketGoodsData (α : Type) where
  items : List α
  page_num : Int
  page_size : Int
  total_count : Int
  total_page : Int
deriving DecidableEq, Repr

/-- `MarketGoodsResponse` envelope (src/buff_market/models.rs). -/
structure MarketGoodsResponse (α : Type) where
  code : String
  data : Option (MarketGoodsData α)
  msg : Option String
deriving DecidableEq, Repr

/-- `BuffMarketClient::get_buy_orders` response handling
(src/buff_market/client.rs:78-106): on 2xx read the body text, decode it
(`JsonParse` on failure), then reject a non-"OK" envelope code with
`ApiError` carrying the envelope message (or "Unknown API error"); on
non-2xx, `error_for_status` yields `HttpRequest` carrying the status only. -/
def BuffMarketClient.get_buy_orders_handle {α : Type}
    (decode : String → Except String (GoodsBuyOrderResponse α))
    (resp : HttpResponse) : Except BuffMarketError (GoodsBuyOrderResponse α) :=
  if resp.isSuccess then
    match decode resp.body with
    | .error e => .error (.jsonParse e)
    | .ok parsed =>
      if parsed.code ≠ "OK" then
        .error (.apiError (parsed.msg.getD "Unknown API error"))
      else .ok parsed
  else .error (.httpRequest resp.status)

/-- `BuffMarketClient::get_market_listings` response handling
(src/buff_market/client.rs:136-154); same shape as `get_buy_orders`. -/
def BuffMarketClient.get_market_listings_handle {α : Type}
    (decode : String → Except String (MarketGoodsResponse α))
    (resp : HttpResponse) : Except BuffMarketError (MarketGoodsResponse α) :=
  if resp.isSuccess then
    match decode resp.body with
    | .error e => .error (.jsonParse e)
    | .ok parsed =>
      if parsed.code ≠ "OK" then
        .error (.apiError (parsed.msg.getD "Unknown API error"))
      else .ok parsed
  else .error (.httpRequest resp.status)

/-- Mutable state of the `get_all_market_listings` loop
(src/buff_market/client.rs:162-164). -/
structure LoopState (α : Type) where
  all_items : List α
  current_page : Int
  total_pages : Int
deriving DecidableEq, Repr

/-- Outcome of the `get_all_market_listings` loop. -/
inductive LoopOut (α : Type) where
  | ok : List α → LoopOut α
  | err : BuffMarketError → LoopOut α
deriving DecidableEq, Repr

/-- One iteration of the `get_all_market_listings` loop
(src/buff_market/client.rs:166-213).  `pages` maps a page number to the
result of `get_market_listings` for that page; `Sum.inl` is loop exit
(break / return), `Sum.inr` the state carried to the next iteration. -/
def BuffMarketClient.get_all_step {α : Type}
    (pages : Int → Except BuffMarketError (MarketGoodsResponse α))
    (s : LoopState α) : LoopOut α ⊕ LoopState α :=
  if s.current_page > s.total_pages ∧ s.total_pages ≠ 0 then
    .inl (.ok s.all_items)
  else
    match pages s.current_page with
    | .error e => .inl (.err e)
    | .ok response =>
      match response.data with
      | some data =>
        let extendAdvance : LoopOut α ⊕ LoopState α :=
          let all_items := s.all_items ++ data.items
          let total_pages := data.total_page
          if data.total_count = 0 then .inl (.ok all_items)
          else
            let current_page := s.current_page + 1
            if current_page > total_pages ∧ total_pages ≠ 0 then
              .inl (.ok all_items)
            else .inr { all_items, current_page, total_pages }
        if data.items.isEmpty then
          if data.total_count = 0 then .inl (.ok s.all_items)
          else if s.current_page ≥ s.total_pages ∧ s.total_pages ≠ 0 then
            .inl (.ok s.all_items)
          else extendAdvance
        else extendAdvance
      | none =>
        if response.code = "OK" then
          .inl (.ok s.all_items)
        else
          .inl (.err (.missingData ("No data found for game on page " ++
            toString s.current_page ++ " using get_market_listings.")))

/-- Run the loop for at most `n` iterations from state `s`. -/
def BuffMarketClient.get_all_run {α : Type}
    (pages : Int → Except BuffMarketError (MarketGoodsResponse α))
    (s : LoopState α) : Nat → LoopOut α ⊕ LoopState α
  | 0 => .inr s
  | n + 1 =>
    match BuffMarketClient.get_all_step pages s with
    | .inl out => .inl out
    | .inr s' => BuffMarketClient.get_all_run pages s' n

/-- Initial loop state of `get_all_market_listings`: no items, page 1,
`total_pages` initialised to 1. -/
def BuffMarketClient.get_all_init {α : Type} : LoopState α :=
  { all_items := [], current_page := 1, total_pages := 1 }

/-- `get_all_market_listings` terminates on the page sequence `pages`. -/
def BuffMarketClient.get_all_terminates {α : Type}
    (pages : Int → Except BuffMarketError (MarketGoodsResponse α)) : Prop :=
  ∃ n out, BuffMarketClient.get_all_run pages BuffMarketClient.get_all_init n = .inl out

/-! ## HMAC scheme (spec §4.1, §6) -/

/-- Modelled from the spec: the HMAC signing scheme has no implementation
under src/ — only the `DMarketError::HmacError` variant declares it — so it
is modelled from the spec's words (§4.1, §6): canonical message
`timestamp ++ METHOD ++ path ++ body` with the method uppercased and the
path forced to start with `/`, a keyed hash (HMAC-SHA256, abstracted as
`hmacSha256`) of the message's UTF-8 bytes under the private key, and the
digest encoded as base64 for the `x-sign` header. -/
def hmac_sign (hmacSha256 : List Nat → String → List Nat) (key : List Nat)
    (timestamp method path body : String) : String :=
  base64Encode (hmacSha256 key
    (timestamp ++ method.toUpper ++ ensureLeadingSlash path ++ body))

/-! ## Helper lemmas on the hex codec -/

/-- Decoding inverts encoding on each hex digit. -/
theorem hexDigitVal_hexDigitChar : ∀ n < 16, hexDigitVal (hexDigitChar n) = some n := by
  decide

/-- A decoded hex digit is a nibble. -/
theorem hexDigitVal_lt {c : Char} {v : Nat} (h : hexDigitVal c = some v) : v < 16 := by
  unfold hexDigitVal at h
  split at h
  · cases h; omega
  · split at h
    · cases h; omega
    · split at h
      · cases h; omega
      · cases h

/-- `hex::decode` inverts `hex::encode` on byte lists. -/
theorem hexDecodeChars_hexEncodeList : ∀ (bs : List Nat), (∀ b ∈ bs, b < 256) →
    hexDecodeChars (hexEncodeList bs) = some bs
  | [], _ => rfl
  | b :: rest, h => by
    have hb : b < 256 := h b (List.mem_cons_self ..)
    have hrest := hexDecodeChars_hexEncodeList rest
      (fun x hx => h x (List.mem_cons_of_mem _ hx))
    have h1 : b / 16 < 16 := by omega
    have h2 : b % 16 < 16 := by omega
    have hbb : b / 16 * 16 + b % 16 = b := by omega
    simp only [hexEncodeList, hexDecodeChars,
      hexDigitVal_hexDigitChar _ h1, hexDigitVal_hexDigitChar _ h2, hrest, hbb]

/-- Bytes produced by `hex::decode` are below 256. -/
theorem hexDecodeChars_bound : ∀ (cs : List Char) (bs : List Nat),
    hexDecodeChars cs = some bs → ∀ b ∈ bs, b < 256
  | [], bs, h => by
    simp only [hexDecodeChars, Option.some.injEq] at h
    subst h
    intro b hb
    cases hb
  | [_], bs, h => by simp [hexDecodeChars] at h
  | c1 :: c2 :: rest, bs, h => by
    simp only [hexDecodeChars] at h
    cases hv1 : hexDigitVal c1 with
    | none => simp [hv1] at h
    | some v1 =>
      cases hv2 : hexDigitVal c2 with
      | none => simp [hv1, hv2] at h
      | some v2 =>
        cases ht : hexDecodeChars rest with
        | none => simp [hv1, hv2, ht] at h
        | some t =>
          simp only [hv1, hv2, ht, Option.some.injEq] at h
          subst h
          intro b hb
          rcases List.mem_cons.mp hb with hb | hb
          · have := hexDigitVal_lt hv1
            have := hexDigitVal_lt hv2
            omega
          · exact hexDecodeChars_bound rest t ht b hb

/-- `hex::decode` consumes two characters per byte. -/
theorem hexDecodeChars_length : ∀ (cs : List Char) (bs : List Nat),
    hexDecodeChars cs = some bs → cs.length = 2 * bs.length
  | [], bs, h => by
    simp only [hexDecodeChars, Option.some.injEq] at h
    subst h
    rfl
  | [_], bs, h => by simp [hexDecodeChars] at h
  | c1 :: c2 :: rest, bs, h => by
    simp only [hexDecodeChars] at h
    cases hv1 : hexDigitVal c1 with
    | none => simp [hv1] at h
    | some v1 =>
      cases hv2 : hexDigitVal c2 with
      | none => simp [hv1, hv2] at h
      | some v2 =>
        cases ht : hexDecodeChars rest with
        | none => simp [hv1, hv2, ht] at h
        | some t =>
          simp only [hv1, hv2, ht, Option.some.injEq] at h
          subst h
          have := hexDecodeChars_length rest t ht
          simp only [List.length_cons]
          omega

/-- `hex::encode` emits two characters per byte. -/
theorem hexEncodeList_length : ∀ (bs : List Nat),
    (hexEncodeList bs).length = 2 * bs.length
  | [] => rfl
  | _ :: rest => by
    simp only [hexEncodeList, List.length_cons, hexEncodeList_length rest]
    omega

/-! ## Claim theorems -/

/-- C1: for every method, path, body and timestamp,
`DMarketClient::generate_signature` returns `Ok` of `"dmar ed25519 "`
followed by the lowercase hex encoding of the signature (under the client's
signing key) of `uppercase(method) ++ path' ++ body ++ timestamp`, where
`path'` prepends a `/` only when `path` lacks one — the canonical message
order is method, path, body, timestamp. -/
theorem generate_signature_canonical (sign : List Nat → String → List Nat)
    (c : DMarketClient) (timestamp method path body : String) :
    DMarketClient.generate_signature sign c timestamp method path body =
      .ok ("dmar ed25519 " ++ hexEncode (sign c.key (method.toUpper ++
        (if startsWithSlash path then path else "/" ++ path) ++
        body ++ timestamp))) := by
  unfold DMarketClient.generate_signature ensureLeadingSlash
  cases h : startsWithSlash path <;> simp [h]

/-- C2: the HMAC signing scheme (modelled from the spec; no implementation
exists under src/) produces, for every method, path, body, timestamp and
private key, the signature
`base64(HMAC-SHA256(key, timestamp ++ uppercase(method) ++ path ++ body))`
for the `x-sign` header. -/
theorem hmac_sign_canonical (hmacSha256 : List Nat → String → List Nat)
    (key : List Nat) (timestamp method path body : String)
    (hp : startsWithSlash path = true) :
    hmac_sign hmacSha256 key timestamp method path body =
      base64Encode (hmacSha256 key (timestamp ++ method.toUpper ++ path ++ body)) := by
  unfold hmac_sign ensureLeadingSlash
  simp [hp]

/-- Witness for C2 at a concrete input. -/
theorem hmac_sign_canonical_witness :
    hmac_sign (fun k m => [k.length, m.length]) [1, 2] "1700000000" "get" "/path" "" =
      base64Encode ((fun (k : List Nat) (m : String) => [k.length, m.length]) [1, 2]
        ("1700000000" ++ "get".toUpper ++ "/path" ++ "")) :=
  hmac_sign_canonical (fun k m => [k.length, m.length]) [1, 2]
    "1700000000" "get" "/path" "" (by rfl)

/-- C5: a private key whose hex-decoded byte length is neither 32 nor 64 is
rejected by `DMarketClient::new` with a configuration (`ApiError`) error —
no client, hence no signing key, is ever constructed from it, so
`generate_signature` is unreachable for such a key. -/
theorem new_rejects_bad_key_length (private_key public_key : String)
    (bs : List Nat) (hdec : hexDecode private_key = some bs)
    (h32 : bs.length ≠ 32) (h64 : bs.length ≠ 64) :
    ∃ msg, DMarketClient.new private_key public_key = .error (.apiError msg) := by
  unfold DMarketClient.new
  split
  · exact ⟨_, rfl⟩
  split
  · exact ⟨_, rfl⟩
  rw [hdec]
  simp only [h32, h64, if_false]
  exact ⟨_, rfl⟩

/-- Witness for C5: a 20-byte (40 hex character) key is rejected. -/
theorem new_rejects_bad_key_length_witness :
    ∃ msg, DMarketClient.new "0000000000000000000000000000000000000000"
      "00000000000000000000000000000000" = .error (.apiError msg) :=
  new_rejects_bad_key_length _ _ (List.replicate 20 0) (by decide) (by decide)
    (by decide)

/-- C9: from a private key hex-decoding to 64 bytes, `DMarketClient::new`
builds the signing key from only the first 32 bytes (the seed), so the
client is identical — and signs identically on every input — to the client
built from the hex encoding of those first 32 bytes alone. -/
theorem new_64_byte_key_uses_seed (private_key public_key : String)
    (bs : List Nat) (hdec : hexDecode private_key = some bs)
    (hlen : bs.length = 64) (hpub : 32 ≤ public_key.length) :
    ∃ c c', DMarketClient.new private_key public_key = .ok c ∧
      DMarketClient.new (hexEncode (bs.take 32)) public_key = .ok c' ∧
      c = c' ∧ c.key = bs.take 32 ∧
      ∀ sign timestamp method path body,
        DMarketClient.generate_signature sign c timestamp method path body =
          DMarketClient.generate_signature sign c' timestamp method path body := by
  have hdata : private_key.data.length = 2 * bs.length :=
    hexDecodeChars_length _ _ hdec
  have hpklen : ¬ (private_key.length < 32) := by
    have h : private_key.length = private_key.data.length := rfl
    omega
  have htklen : (bs.take 32).length = 32 := by
    simp [List.length_take, hlen]
  have hbound : ∀ b ∈ bs.take 32, b < 256 := fun b hb =>
    hexDecodeChars_bound _ _ hdec b (List.take_subset _ _ hb)
  have heklen : ¬ ((hexEncode (bs.take 32)).length < 32) := by
    have h : (hexEncode (bs.take 32)).length = (hexEncodeList (bs.take 32)).length := rfl
    rw [h, hexEncodeList_length, htklen]
    omega
  have hekdec : hexDecode (hexEncode (bs.take 32)) = some (bs.take 32) := by
    show hexDecodeChars (hexEncodeList (bs.take 32)) = some (bs.take 32)
    exact hexDecodeChars_hexEncodeList _ hbound
  refine ⟨⟨bs.take 32, public_key⟩, ⟨bs.take 32, public_key⟩, ?_, ?_, rfl, rfl,
    fun _ _ _ _ _ => rfl⟩
  · simp only [DMarketClient.new, hdec]
    rw [if_neg hpklen, if_neg (show ¬ public_key.length < 32 by omega),
      if_neg (show ¬ bs.length = 32 by omega), if_pos hlen]
  · simp only [DMarketClient.new, hekdec]
    rw [if_neg heklen, if_neg (show ¬ public_key.length < 32 by omega),
      if_pos htklen]

/-- Witness for C9: a concrete 128-hex-character (64-byte) key. -/
theorem new_64_byte_key_uses_seed_witness :
    ∃ c c', DMarketClient.new
        "00000000000000000000000000000000000000000000000000000000000000000000000000000000000000000000000000000000000000000000000000000000"
        "00000000000000000000000000000000" = .ok c ∧
      DMarketClient.new (hexEncode ((List.replicate 64 0).take 32))
        "00000000000000000000000000000000" = .ok c' ∧
      c = c' ∧ c.key = (List.replicate 64 0).take 32 ∧
      ∀ sign timestamp method path body,
        DMarketClient.generate_signature sign c timestamp method path body =
          DMarketClient.generate_signature sign c' timestamp method path body :=
  new_64_byte_key_uses_seed _ _ (List.replicate 64 0) (by decide) (by decide)
    (by decide)

/-- C8: on a successfully parsed market-items body, `get_market_items` and
`search_market_items` return the list decoded from `objects` when it is
non-empty and otherwise the list decoded from `items`; hence a body carrying
the items under `items` with no `objects` key yields the same typed list as
the same content under `objects`. -/
theorem market_items_field_fallback {α β : Type} (conv : α → β) :
    (∀ (jsonValid : String → Except String Unit)
       (decode : String → Except String (DMarketResponse α))
       (resp : HttpResponse) (r : DMarketResponse α),
       resp.isSuccess = true → jsonValid resp.body = .ok () →
       decode resp.body = .ok r →
       DMarketClient.get_market_items_handle jsonValid decode conv resp =
         .ok { objects := (if !r.objects.isEmpty then r.objects else r.items).map conv,
               total := r.total.offers }) ∧
    (∀ (decode : String → Except String (DMarketResponse α))
       (resp : HttpResponse) (r : DMarketResponse α),
       resp.isSuccess = true → decode resp.body = .ok r →
       DMarketClient.search_market_items_handle decode conv resp =
         .ok { objects := (if !r.objects.isEmpty then r.objects else r.items).map conv,
               total := r.total.offers }) ∧
    (∀ (xs : List α) (t : TotalCounts),
       selectMarketItems { objects := [], items := xs, total := t } =
       selectMarketItems { objects := xs, items := [], total := t }) := by
  refine ⟨fun jsonValid decode resp r hs hv hd => ?_,
    fun decode resp r hs hd => ?_, fun xs t => ?_⟩
  · simp [DMarketClient.get_market_items_handle, hs, hv, hd, selectMarketItems]
  · simp [DMarketClient.search_market_items_handle, hs, hd, selectMarketItems]
  · cases xs <;> simp [selectMarketItems]

/-- Witness for C8: items arriving under `items` with an empty `objects`
come out converted, with the `offers` counter as the total. -/
theorem market_items_field_fallback_witness :
    DMarketClient.get_market_items_handle (fun _ => .ok ())
      (fun _ => .ok { objects := [], items := [7], total := ⟨3, 0, 0, 0, 0⟩ })
      (fun n : Nat => n + 1) { status := 200, body := "resp" } =
      .ok { objects := [8], total := 3 } := by
  have h := (market_items_field_fallback (fun n : Nat => n + 1)).1
    (fun _ => .ok ()) (fun _ => .ok { objects := [], items := [7], total := ⟨3, 0, 0, 0, 0⟩ })
    { status := 200, body := "resp" } { objects := [], items := [7], total := ⟨3, 0, 0, 0, 0⟩ }
    rfl rfl rfl
  simpa using h

/-- C6: a 2xx Buff Market body parsing into the `{code, data, msg}` envelope
with `code ≠ "OK"` makes `get_buy_orders` and `get_market_listings` return
an application-level `ApiError` with the envelope's `msg` (or
`"Unknown API error"` when absent), never a success. -/
theorem envelope_code_not_ok_is_api_error {α β : Type} :
    (∀ (decode : String → Except String (GoodsBuyOrderResponse α))
       (resp : HttpResponse) (parsed : GoodsBuyOrderResponse α),
       resp.isSuccess = true → decode resp.body = .ok parsed →
       parsed.code ≠ "OK" →
       BuffMarketClient.get_buy_orders_handle decode resp =
         .error (.apiError (parsed.msg.getD "Unknown API error"))) ∧
    (∀ (decode : String → Except String (MarketGoodsResponse β))
       (resp : HttpResponse) (parsed : MarketGoodsResponse β),
       resp.isSuccess = true → decode resp.body = .ok parsed →
       parsed.code ≠ "OK" →
       BuffMarketClient.get_market_listings_handle decode resp =
         .error (.apiError (parsed.msg.getD "Unknown API error"))) := by
  refine ⟨fun decode resp parsed hs hd hc => ?_, fun decode resp parsed hs hd hc => ?_⟩
  · simp [BuffMarketClient.get_buy_orders_handle, hs, hd, hc]
  · simp [BuffMarketClient.get_market_listings_handle, hs, hd, hc]

/-- Witness for C6: a 200 envelope `code = "FAIL"`, `msg = "bad request"`
produces the application error carrying `"bad request"`. -/
theorem envelope_code_not_ok_is_api_error_witness :
    BuffMarketClient.get_market_listings_handle
      (fun _ => .ok ⟨"FAIL", none, some "bad request"⟩ :
        String → Except String (MarketGoodsResponse Unit))
      ⟨200, "envelope body"⟩ = .error (.apiError "bad request") := by
  have h := (envelope_code_not_ok_is_api_error (α := Unit) (β := Unit)).2
    (fun _ => .ok ⟨"FAIL", none, some "bad request"⟩)
    ⟨200, "envelope body"⟩ ⟨"FAIL", none, some "bad request"⟩
    rfl rfl (by decide)
  simpa using h

/-- C4 counterexample: on Buff Market, a 404 response with body
`"not found"` yields `HttpRequest 404`, and the identical error results from
a different body — the error cannot carry the response body text at all. -/
theorem http_error_drops_body_counterexample :
    BuffMarketClient.get_buy_orders_handle
      (fun _ => .error "unused" : String → Except String (GoodsBuyOrderResponse Unit))
      ⟨404, "not found"⟩ = .error (.httpRequest 404) ∧
    BuffMarketClient.get_buy_orders_handle
      (fun _ => .error "unused" : String → Except String (GoodsBuyOrderResponse Unit))
      ⟨404, "a different body"⟩ = .error (.httpRequest 404) := by
  exact ⟨rfl, rfl⟩

/-- C4 amended: on a non-2xx response, the DMarket operations that check the
status before touching the body (`get_user_profile`, `get_market_items`,
`search_market_items` and the other endpoints of the same shape) and the
CSFloat operations return an `ApiError` whose message carries the status
code and the body text verbatim; DMarket `get_account_balance` parses the
body as JSON before its status check, so a non-2xx response with a non-JSON
body yields `JsonError` carrying neither status nor body, and only a
JSON-parseable body produces the status-and-body `ApiError`; the Buff
Market operations return `HttpRequest` carrying only the status code —
`error_for_status` discards the body. -/
theorem http_error_payloads {P V α β γ δ : Type}
    (decodeP : String → Except String P)
    (jsonValid : String → Except String Unit)
    (decodeD : String → Except String (DMarketResponse γ)) (conv : γ → δ)
    (decodeV : String → Except String V) (getUsd getDmc : V → Option String)
    (decodeB : String → Except String (GoodsBuyOrderResponse α))
    (decodeM : String → Except String (MarketGoodsResponse β))
    (resp : HttpResponse) (hfail : resp.isSuccess = false) :
    DMarketClient.get_user_profile_handle decodeP resp =
      .error (.apiError ("API returned error status " ++ toString resp.status ++
        ": " ++ resp.body)) ∧
    DMarketClient.get_market_items_handle jsonValid decodeD conv resp =
      .error (.apiError ("API returned error status " ++ toString resp.status ++
        ": " ++ resp.body)) ∧
    DMarketClient.search_market_items_handle decodeD conv resp =
      .error (.apiError ("API returned error status " ++ toString resp.status ++
        ": " ++ resp.body)) ∧
    (∀ v, decodeV resp.body = .ok v →
      DMarketClient.get_account_balance_handle decodeV getUsd getDmc resp =
        .error (.apiError ("API returned error status " ++ toString resp.status ++
          ": " ++ resp.body))) ∧
    (∀ e, decodeV resp.body = .error e →
      DMarketClient.get_account_balance_handle decodeV getUsd getDmc resp =
        .error (.jsonError e)) ∧
    CSFloatClient.get_handle decodeP resp =
      .error (.apiError ("API request failed with status " ++
        toString resp.status ++ ": " ++ resp.body)) ∧
    CSFloatClient.post_handle decodeP resp =
      .error (.apiError ("API request failed with status " ++
        toString resp.status ++ ": " ++ resp.body)) ∧
    BuffMarketClient.get_buy_orders_handle decodeB resp =
      .error (.httpRequest resp.status) ∧
    BuffMarketClient.get_market_listings_handle decodeM resp =
      .error (.httpRequest resp.status) := by
  refine ⟨?_, ?_, ?_, fun v hv => ?_, fun e he => ?_, ?_, ?_, ?_, ?_⟩
  · simp [DMarketClient.get_user_profile_handle, hfail]
  · simp [DMarketClient.get_market_items_handle, hfail]
  · simp [DMarketClient.search_market_items_handle, hfail]
  · simp [DMarketClient.get_account_balance_handle, hv, hfail]
  · simp [DMarketClient.get_account_balance_handle, he]
  · simp [CSFloatClient.get_handle, hfail]
  · simp [CSFloatClient.post_handle, hfail]
  · simp [BuffMarketClient.get_buy_orders_handle, hfail]
  · simp [BuffMarketClient.get_market_listings_handle, hfail]

/-- Witness for the amended C4 at a concrete 404 response with body
`"not found"`: a status-first DMarket operation keeps status and body, the
parse-first `get_account_balance` returns `JsonError` with neither, and
Buff Market keeps only the status. -/
theorem http_error_payloads_witness :
    DMarketClient.get_user_profile_handle
      (fun _ => .error "unused" : String → Except String Unit)
      ⟨404, "not found"⟩ =
      .error (.apiError "API returned error status 404: not found") ∧
    DMarketClient.get_account_balance_handle
      (fun s => .error ("expected value: " ++ s) : String → Except String Unit)
      (fun _ => none) (fun _ => none) ⟨404, "not found"⟩ =
      .error (.jsonError "expected value: not found") ∧
    CSFloatClient.get_handle
      (fun _ => .error "unused" : String → Except String Unit)
      ⟨404, "not found"⟩ =
      .error (.apiError "API request failed with status 404: not found") ∧
    BuffMarketClient.get_buy_orders_handle
      (fun _ => .error "unused" : String → Except String (GoodsBuyOrderResponse Unit))
      ⟨404, "not found"⟩ = .error (.httpRequest 404) ∧
    BuffMarketClient.get_market_listings_handle
      (fun _ => .error "unused" : String → Except String (MarketGoodsResponse Unit))
      ⟨404, "not found"⟩ = .error (.httpRequest 404) := by
  have h := http_error_payloads
    (fun _ => .error "unused" : String → Except String Unit)
    (fun _ => .ok ())
    (fun _ => .error "unused" : String → Except String (DMarketResponse Unit))
    (fun u : Unit => u)
    (fun s => .error ("expected value: " ++ s) : String → Except String Unit)
    (fun _ => none) (fun _ => none)
    (fun _ => .error "unused" : String → Except String (GoodsBuyOrderResponse Unit))
    (fun _ => .error "unused" : String → Except String (MarketGoodsResponse Unit))
    ⟨404, "not found"⟩ rfl
  exact ⟨h.1, h.2.2.2.2.1 "expected value: not found" rfl, h.2.2.2.2.2.1,
    h.2.2.2.2.2.2.2.1, h.2.2.2.2.2.2.2.2⟩

/-- C3 counterexample: `DMarketClient::get_user_profile` decodes a 2xx body
through `reqwest::Response::json` without reading it as text first; a decode
failure surfaces as the transport-library `RequestError`, not as the
repository's deserialization (`JsonError`) variant, and no raw body text is
captured for diagnostics. -/
theorem read_text_before_decode_counterexample :
    DMarketClient.get_user_profile_handle
      (fun s => .error ("expected value: " ++ s) : String → Except String Unit)
      ⟨200, "not json"⟩ =
      .error (.requestError ("expected value: " ++ "not json")) := by
  rfl

/-- C3 amended: the operations that parse the body manually — CSFloat `get`
and `post`, DMarket `get_market_items` / `search_market_items`, Buff Market
`get_buy_orders` / `get_market_listings` — read the full body text before
decoding and report a decode failure through their deserialization-error
variant carrying the diagnostic computed from exactly that text; operations
built on `reqwest::Response::json` (DMarket `get_user_profile` and the
trading/target endpoints) capture no raw text and report decode failure as a
transport-library `RequestError`. -/
theorem read_text_before_decode_payloads {T α β γ δ : Type}
    (decodeT : String → Except String T)
    (jsonValid : String → Except String Unit)
    (decodeD : String → Except String (DMarketResponse α)) (conv : α → γ)
    (decodeB : String → Except String (GoodsBuyOrderResponse δ))
    (decodeM : String → Except String (MarketGoodsResponse β))
    (resp : HttpResponse) (hs : resp.isSuccess = true) (e : String) :
    (decodeT resp.body = .error e →
      CSFloatClient.get_handle decodeT resp = .error (.serializationError e)) ∧
    (decodeT resp.body = .error e →
      CSFloatClient.post_handle decodeT resp = .error (.serializationError e)) ∧
    (jsonValid resp.body = .error e →
      DMarketClient.get_market_items_handle jsonValid decodeD conv resp =
        .error (.jsonError e)) ∧
    (jsonValid resp.body = .ok () → decodeD resp.body = .error e →
      DMarketClient.get_market_items_handle jsonValid decodeD conv resp =
        .error (.jsonError e)) ∧
    (decodeD resp.body = .error e →
      DMarketClient.search_market_items_handle decodeD conv resp =
        .error (.jsonError e)) ∧
    (decodeB resp.body = .error e →
      BuffMarketClient.get_buy_orders_handle decodeB resp =
        .error (.jsonParse e)) ∧
    (decodeM resp.body = .error e →
      BuffMarketClient.get_market_listings_handle decodeM resp =
        .error (.jsonParse e)) ∧
    (decodeT resp.body = .error e →
      DMarketClient.get_user_profile_handle decodeT resp =
        .error (.requestError e)) := by
  refine ⟨fun h => ?_, fun h => ?_, fun h => ?_, fun hv h => ?_, fun h => ?_,
    fun h => ?_, fun h => ?_, fun h => ?_⟩
  · simp [CSFloatClient.get_handle, hs, h]
  · simp [CSFloatClient.post_handle, hs, h]
  · simp [DMarketClient.get_market_items_handle, hs, h]
  · simp [DMarketClient.get_market_items_handle, hs, hv, h]
  · simp [DMarketClient.search_market_items_handle, hs, h]
  · simp [BuffMarketClient.get_buy_orders_handle, hs, h]
  · simp [BuffMarketClient.get_market_listings_handle, hs, h]
  · simp [DMarketClient.get_user_profile_handle, hs, h]

/-- Witness for the amended C3: CSFloat `get` reports the decode diagnostic
of the body it read. -/
theorem read_text_before_decode_payloads_witness :
    CSFloatClient.get_handle
      (fun _ => .error "diag" : String → Except String Unit)
      ⟨200, "not json"⟩ = .error (.serializationError "diag") := by
  have h := (read_text_before_decode_payloads
    (fun _ => .error "diag" : String → Except String Unit)
    (fun _ => .ok ())
    (fun _ => .error "diag" : String → Except String (DMarketResponse Unit))
    (fun u : Unit => u)
    (fun _ => .error "diag" : String → Except String (GoodsBuyOrderResponse Unit))
    (fun _ => .error "diag" : String → Except String (MarketGoodsResponse Unit))
    ⟨200, "not json"⟩ rfl "diag").1 rfl
  exact h

/-- Errors returned by `get_market_listings` are never `MissingData`. -/
theorem get_market_listings_handle_error_not_missing {α : Type}
    (decode : String → Except String (MarketGoodsResponse α))
    (resp : HttpResponse) (e : BuffMarketError)
    (h : BuffMarketClient.get_market_listings_handle decode resp = .error e) :
    ∀ m, e ≠ .missingData m := by
  unfold BuffMarketClient.get_market_listings_handle at h
  split at h
  · split at h
    · cases h
      intro m
      simp
    · split at h
      · cases h
        intro m
        simp
      · cases h
  · cases h
    intro m
    simp

/-- Successful results of `get_market_listings` always carry envelope code
`"OK"`. -/
theorem get_market_listings_handle_ok_code {α : Type}
    (decode : String → Except String (MarketGoodsResponse α))
    (resp : HttpResponse) (r : MarketGoodsResponse α)
    (h : BuffMarketClient.get_market_listings_handle decode resp = .ok r) :
    r.code = "OK" := by
  unfold BuffMarketClient.get_market_listings_handle at h
  split at h
  · split at h
    · cases h
    · split at h
      · cases h
      · rename_i parsed hcode
        cases h
        simpa using hcode
  · cases h

/-- When every page result is well-behaved (success implies code `"OK"`,
failure is never `MissingData`), one loop step never exits with
`MissingData`. -/
theorem get_all_step_not_missing {α : Type}
    (pages : Int → Except BuffMarketError (MarketGoodsResponse α))
    (hok : ∀ p r, pages p = .ok r → r.code = "OK")
    (herr : ∀ p e, pages p = .error e → ∀ m, e ≠ .missingData m)
    (s : LoopState α) (m : String) :
    BuffMarketClient.get_all_step pages s ≠ .inl (.err (.missingData m)) := by
  unfold BuffMarketClient.get_all_step
  split
  · simp
  · split
    · rename_i e heq
      have hnot := herr s.current_page e heq m
      simp [hnot]
    · rename_i response heq
      have hcode := hok s.current_page response heq
      split
      · dsimp only
        repeat' split
        all_goals simp
      · simp [hcode]

/-- Over well-behaved pages the whole loop never exits with
`MissingData`. -/
theorem get_all_run_not_missing {α : Type}
    (pages : Int → Except BuffMarketError (MarketGoodsResponse α))
    (hok : ∀ p r, pages p = .ok r → r.code = "OK")
    (herr : ∀ p e, pages p = .error e → ∀ m, e ≠ .missingData m) :
    ∀ (n : Nat) (s : LoopState α) (out : LoopOut α),
      BuffMarketClient.get_all_run pages s n = .inl out →
      ∀ m, out ≠ .err (.missingData m)
  | 0, s, out, h => by simp [BuffMarketClient.get_all_run] at h
  | n + 1, s, out, h => by
    unfold BuffMarketClient.get_all_run at h
    cases hstep : BuffMarketClient.get_all_step pages s with
    | inl o =>
      rw [hstep] at h
      cases h
      intro m hcontra
      exact get_all_step_not_missing pages hok herr s m (by rw [hstep, hcontra])
    | inr s' =>
      rw [hstep] at h
      exact get_all_run_not_missing pages hok herr n s' out h

/-- C10: `get_all_market_listings` can never return `MissingData`: every
page `get_market_listings` returns successfully has envelope code `"OK"`,
a code-`"OK"` page with `data = None` makes the loop return `Ok` with the
items accumulated so far (the empty list on page 1), and over pages
produced by `get_market_listings` the loop never exits with the
`MissingData` variant. -/
theorem get_all_never_missing_data {α : Type} :
    (∀ (decode : String → Except String (MarketGoodsResponse α))
       (resp : HttpResponse) (r : MarketGoodsResponse α),
       BuffMarketClient.get_market_listings_handle decode resp = .ok r →
       r.code = "OK") ∧
    (∀ (pages : Int → Except BuffMarketError (MarketGoodsResponse α))
       (s : LoopState α) (r : MarketGoodsResponse α),
       pages s.current_page = .ok r → r.code = "OK" → r.data = none →
       BuffMarketClient.get_all_step pages s = .inl (.ok s.all_items)) ∧
    (∀ (decodes : Int → String → Except String (MarketGoodsResponse α))
       (resps : Int → HttpResponse) (n : Nat) (out : LoopOut α) (m : String),
       BuffMarketClient.get_all_run
         (fun p => BuffMarketClient.get_market_listings_handle (decodes p) (resps p))
         BuffMarketClient.get_all_init n = .inl out →
       out ≠ .err (.missingData m)) := by
  refine ⟨fun decode resp r h => get_market_listings_handle_ok_code decode resp r h,
    fun pages s r hp hcode hdata => ?_, fun decodes resps n out m h => ?_⟩
  · unfold BuffMarketClient.get_all_step
    split
    · rfl
    · simp [hp, hdata, hcode]
  · exact get_all_run_not_missing _
      (fun p r hr => get_market_listings_handle_ok_code (decodes p) (resps p) r hr)
      (fun p e he => get_market_listings_handle_error_not_missing (decodes p) (resps p) e he)
      n BuffMarketClient.get_all_init out h m

/-- Witness for C10: a code-`"OK"` page with no `data` on page 1 ends the
loop with the empty accumulated list. -/
theorem get_all_never_missing_data_witness :
    BuffMarketClient.get_all_step
      (fun _ => .ok ⟨"OK", none, none⟩ :
        Int → Except BuffMarketError (MarketGoodsResponse Unit))
      BuffMarketClient.get_all_init = .inl (.ok []) := by
  have h := (get_all_never_missing_data (α := Unit)).2.1
    (fun _ => .ok ⟨"OK", none, none⟩) BuffMarketClient.get_all_init
    ⟨"OK", none, none⟩ rfl rfl rfl
  simpa using h

/-- Adversarial page sequence for the pagination loop: every page reports
one item with `total_count = 1` but `total_page = 0`. -/
def inconsistentPages : Int → Except BuffMarketError (MarketGoodsResponse Unit) :=
  fun _ => .ok ⟨"OK", some ⟨[()], 1, 20, 1, 0⟩, none⟩

/-- On `inconsistentPages`, any loop state with `total_pages = 0` steps to
another state with `total_pages = 0`: the loop can never exit. -/
theorem inconsistentPages_step (s : LoopState Unit) (h : s.total_pages = 0) :
    BuffMarketClient.get_all_step inconsistentPages s =
      .inr ⟨s.all_items ++ [()], s.current_page + 1, 0⟩ := by
  unfold BuffMarketClient.get_all_step inconsistentPages
  simp [h]

/-- From any zero-`total_pages` state, `inconsistentPages` keeps the loop
running for every fuel bound. -/
theorem inconsistentPages_run (n : Nat) :
    ∀ s : LoopState Unit, s.total_pages = 0 →
      ∀ out, BuffMarketClient.get_all_run inconsistentPages s n ≠ .inl out := by
  induction n with
  | zero =>
    intro s h out
    simp [BuffMarketClient.get_all_run]
  | succ n ih =>
    intro s h out
    unfold BuffMarketClient.get_all_run
    rw [inconsistentPages_step s h]
    exact ih _ rfl out

/-- C7 counterexample: `get_all_market_listings` does not terminate on the
concrete page sequence persistently reporting `total_page = 0` with
`total_count = 1` and a non-empty item list — exactly the
disagreeing-signals case the claim says still stops. -/
theorem get_all_nontermination_counterexample :
    ¬ BuffMarketClient.get_all_terminates inconsistentPages := by
  rintro ⟨n, out, h⟩
  cases n with
  | zero => simp [BuffMarketClient.get_all_run] at h
  | succ n =>
    unfold BuffMarketClient.get_all_run at h
    have hstep : BuffMarketClient.get_all_step inconsistentPages
        BuffMarketClient.get_all_init = .inr ⟨[()], 2, 0⟩ := by decide
    rw [hstep] at h
    exact inconsistentPages_run n ⟨[()], 2, 0⟩ rfl out h

/-- C7 amended: the `get_all_market_listings` loop exits the iteration when
`current_page` exceeds a nonzero `total_pages`, and exits when a fetched
page carries data with an empty item list and reported `total_count = 0`;
it does not, however, terminate on every infinite page sequence — pages
persistently reporting `total_page = 0` with positive `total_count` keep it
looping forever. -/
theorem get_all_stop_conditions {α : Type}
    (pages : Int → Except BuffMarketError (MarketGoodsResponse α))
    (s : LoopState α) (r : MarketGoodsResponse α) (d : MarketGoodsData α) :
    (s.current_page > s.total_pages ∧ s.total_pages ≠ 0 →
      BuffMarketClient.get_all_step pages s = .inl (.ok s.all_items)) ∧
    (pages s.current_page = .ok r → r.data = some d → d.items = [] →
      d.total_count = 0 →
      BuffMarketClient.get_all_step pages s = .inl (.ok s.all_items)) := by
  constructor
  · intro hc
    unfold BuffMarketClient.get_all_step
    rw [if_pos hc]
  · intro hp hd hitems htc
    unfold BuffMarketClient.get_all_step
    split
    · rfl
    · simp [hp, hd, hitems, htc]

/-- Witness for the amended C7: an empty first page reporting
`total_count = 0` ends the loop at once with no items. -/
theorem get_all_stop_conditions_witness :
    BuffMarketClient.get_all_step
      (fun _ => .ok ⟨"OK", some ⟨[], 1, 20, 0, 1⟩, none⟩ :
        Int → Except BuffMarketError (MarketGoodsResponse Unit))
      BuffMarketClient.get_all_init = .inl (.ok []) := by
  have h := (get_all_stop_conditions
    (fun _ => .ok ⟨"OK", some ⟨[], 1, 20, 0, 1⟩, none⟩ :
      Int → Except BuffMarketError (MarketGoodsResponse Unit))
    BuffMarketClient.get_all_init ⟨"OK", some ⟨[], 1, 20, 0, 1⟩, none⟩
    ⟨[], 1, 20, 0, 1⟩).2 rfl rfl rfl rfl
  simpa using h
